import Mathlib

/-!
Shallow embedding of `migrate.py` from the bitbucket_issue_migration
repository.  Python strings are modelled as Lean `String` / `List Char`;
Python dictionaries with a fixed key set are modelled as structures whose
fields are `Option`-valued when the key may be absent (`none` = key not
present, values taken to be strings).  Python's `KeyError` and
`AttributeError` are modelled with `Except String`.  Network transport is
abstracted: fetchers take the parsed JSON payload (or a page function) as a
parameter, and publishers return the ordered trace of write calls.
-/

namespace Migrate

/-- The opening curly brace character, written via its code point. -/
def obr : Char := Char.ofNat 123

/-- The closing curly brace character. -/
def cbr : Char := Char.ofNat 125

/-- The backtick character. -/
def btick : Char := Char.ofNat 96

/-- Character list of the Bitbucket wiki code-block open marker. -/
def ooo : List Char := [obr, obr, obr]

/-- Character list of the code-block close marker. -/
def ccc : List Char := [cbr, cbr, cbr]

/-- Four-space indent unit used by `clean_body`. -/
def indentU : List Char := [' ', ' ', ' ', ' ']

/-- Boolean test that `p` is an initial segment of `s`, Python `str.startswith`. -/
def leadsWith : List Char → List Char → Bool
  | [], _ => true
  | _ :: _, [] => false
  | p :: ps, c :: cs => p == c && leadsWith ps cs

/-- Locate the first occurrence of `pat` in the string; return the text before
and after it.  This backs both Python `str.partition` and the `in`
containment test of `clean_body`. -/
def findSplit (pat : List Char) : List Char → Option (List Char × List Char)
  | [] => none
  | c :: cs =>
    if leadsWith pat (c :: cs) then some ([], (c :: cs).drop pat.length)
    else
      match findSplit pat cs with
      | some (b, a) => some (c :: b, a)
      | none => none

/-- Python substring containment test. -/
def strContains (s pat : List Char) : Bool := (findSplit pat s).isSome

/-- Fuel-driven worker for `strReplace`; fuel at least the length of the
string suffices for a nonempty pattern. -/
def replaceGo (pat rep : List Char) : Nat → List Char → List Char
  | _, [] => []
  | 0, s => s
  | fuel + 1, c :: cs =>
    if leadsWith pat (c :: cs) && !pat.isEmpty then
      rep ++ replaceGo pat rep fuel ((c :: cs).drop pat.length)
    else
      c :: replaceGo pat rep fuel cs

/-- Python `str.replace` for a nonempty pattern: replace every non-overlapping
occurrence, scanning left to right. -/
def strReplace (s pat rep : List Char) : List Char := replaceGo pat rep s.length s

/-- Python `str.splitlines` restricted to newline-delimited text: split on the
newline character, a trailing newline producing no extra empty line. -/
def splitlinesChars : List Char → List (List Char)
  | [] => []
  | c :: cs =>
    if c == '\n' then [] :: splitlinesChars cs
    else
      match splitlinesChars cs with
      | [] => [[c]]
      | l :: ls => (c :: l) :: ls

/-- A Bitbucket `author_info` dictionary.  Each field is `some v` when the key
is present with string value `v` and `none` when the key is absent. -/
structure AuthorInfo where
  first_name : Option String
  last_name : Option String
  username : Option String
deriving DecidableEq

/-- Truth value of an `author_info` dictionary as a Python condition: an empty
dictionary is falsy. -/
def AuthorInfo.isEmptyDict (a : AuthorInfo) : Bool :=
  a.first_name.isNone && a.last_name.isNone && a.username.isNone

/-- The `username` branch of `format_user`: a markdown link to the profile
page when the key is present, and Python's implicit `None` result otherwise. -/
def usernameLink (a : AuthorInfo) : Except String (Option String) :=
  match a.username with
  | some u => .ok (some ("[" ++ u ++ "](http://bitbucket.org/" ++ u ++ ")"))
  | none => .ok none

/-- migrate.py `format_user`.  Dictionary access with square brackets raises
`KeyError` when the key is absent; a present empty string is falsy, so the
conjunction short-circuits exactly as in the source. -/
def format_user (author_info : Option AuthorInfo) : Except String (Option String) :=
  match author_info with
  | none => .ok (some "Anonymous")
  | some a =>
    if a.isEmptyDict then .ok (some "Anonymous")
    else
      match a.first_name with
      | none => .error "KeyError: first_name"
      | some fn =>
        if fn = "" then usernameLink a
        else
          match a.last_name with
          | none => .error "KeyError: last_name"
          | some ln =>
            if ln = "" then usernameLink a
            else .ok (some (fn ++ " " ++ ln))

/-- Python `unicode(body)` for an optional string: `None` stringifies to the
four characters `None`. -/
def pyUnicode : Option String → String
  | none => "None"
  | some s => s

/-- One iteration of the `clean_body` loop: the lines appended for this input
line together with the updated inside-code-block flag. -/
def clean_line (in_block : Bool) (line : List Char) : List (List Char) × Bool :=
  if leadsWith ooo line || leadsWith ccc line then
    let s1 :=
      match findSplit ooo line with
      | some (_, a) => ([indentU ++ a], true)
      | none => (([] : List (List Char)), in_block)
    let s2 :=
      match findSplit ccc line with
      | some (b, _) => ([indentU ++ b], false)
      | none => (([] : List (List Char)), s1.2)
    (s1.1 ++ s2.1, s2.2)
  else if in_block then
    ([indentU ++ line], in_block)
  else
    ([strReplace (strReplace line ooo [btick]) ccc [btick]], in_block)

/-- Process the lines of the body in order, threading the flag through. -/
def clean_lines : Bool → List (List Char) → List (List Char)
  | _, [] => []
  | b, l :: ls =>
    let r := clean_line b l
    r.1 ++ clean_lines r.2 ls

/-- migrate.py `clean_body`. -/
def clean_body (body : Option String) : String :=
  String.mk (List.intercalate ['\n'] (clean_lines false (splitlinesChars (pyUnicode body).data)))

/-- The parsed command line options of migrate.py (`read_arguments`).
`bitbucket_username` is the boolean `-u` flag (argparse `store_true`);
`bitbucket_accountname` is the positional source account name. -/
structure Options where
  bitbucket_accountname : String
  bitbucket_repo : String
  github_username : String
  github_repo : String
  dry_run : Bool
  start : Int
  bitbucket_username : Bool
deriving DecidableEq

/-- A Bitbucket issue dictionary as used by migrate.py.  `content` is `none`
when the key is absent or null (the source reads it with `.get`);
`reported_by` distinguishes an absent key (outer `none`) from a present null
value (inner `none`); `milestone` and `component` model the two `.get` reads
of the metadata dictionary. -/
structure Issue where
  local_id : Nat
  title : String
  content : Option String
  status : Option String
  created_on : String
  reported_by : Option (Option AuthorInfo)
  milestone : Option String
  component : Option String
deriving DecidableEq

/-- migrate.py `format_name`. -/
def format_name (issue : Issue) : Except String (Option String) :=
  match issue.reported_by with
  | none => .ok (some "Anonymous")
  | some a => format_user a

/-- Python `str` of a boolean, as produced by string formatting. -/
def pyBoolStr (b : Bool) : String := if b then "True" else "False"

/-- The forty-dash separator line of the provenance blocks. -/
def sep40 : String := String.mk (List.replicate 40 '-')

/-- Python string interpolation of a value that may be `None`. -/
def pyFormatOpt : Option String → String
  | none => "None"
  | some s => s

/-- migrate.py `format_body`.  The source interpolates
`options.bitbucket_username` (the boolean `-u` flag) into the URL, not
`options.bitbucket_accountname`; the embedding is faithful to that. -/
def format_body (options : Options) (issue : Issue) : Except String String :=
  match format_name issue with
  | .error e => .error e
  | .ok name =>
    .ok (clean_body issue.content ++ "\n\n" ++ sep40 ++
      "\n- Bitbucket: https://bitbucket.org/" ++ pyBoolStr options.bitbucket_username ++
      "/" ++ options.bitbucket_repo ++ "/issue/" ++ toString issue.local_id ++
      "\n- Originally reported by: " ++ pyFormatOpt name ++
      "\n- Originally created at: " ++ issue.created_on ++ "\n")

/-- A comment record as built by `get_comments`.  The `user` field holds the
`format_user` result, which may be Python `None`. -/
structure Comment where
  user : Option String
  created_at : String
  body : String
  number : Nat
deriving DecidableEq

/-- migrate.py `format_comment`.  Calling `.encode` on a `None` user raises
`AttributeError` in the source. -/
def format_comment (comment : Comment) : Except String String :=
  match comment.user with
  | none => .error "AttributeError: NoneType has no attribute encode"
  | some u => .ok (comment.body ++ "\n\n" ++ sep40 ++ "\nOriginal comment by: " ++ u ++ "\n")

/-- A raw Bitbucket comment dictionary; `content` is `none` for a null body. -/
structure BBComment where
  content : Option String
  author_info : Option AuthorInfo
  utc_created_on : String
  comment_id : Nat
deriving DecidableEq

/-- Python's string comparison, code-point lexicographic, as a boolean
less-or-equal test on character lists. -/
def strLeB : List Char → List Char → Bool
  | [], _ => true
  | _ :: _, [] => false
  | a :: as, b :: bs =>
    if a.toNat < b.toNat then true
    else if b.toNat < a.toNat then false
    else strLeB as bs

/-- Python string less-or-equal, as `sorted` compares the timestamp keys. -/
def pyStrLe (a b : String) : Prop := strLeB a.data b.data = true

instance : ∀ a b : String, Decidable (pyStrLe a b) := fun a b =>
  inferInstanceAs (Decidable (strLeB a.data b.data = true))

/-- Comparison used to sort Bitbucket comments: ascending `utc_created_on`. -/
def commentLe (a b : BBComment) : Prop := pyStrLe a.utc_created_on b.utc_created_on

instance : DecidableRel commentLe := fun a b =>
  inferInstanceAs (Decidable (pyStrLe a.utc_created_on b.utc_created_on))

/-- The filtering and mapping loop of `get_comments`, applied to the sorted
comment list.  The Python loop computes `body = comment['content'] or ''` and
skips the comment when that is empty. -/
def commentsLoop : List BBComment → Except String (List Comment)
  | [] => .ok []
  | c :: cs =>
    if c.content.getD "" = "" then commentsLoop cs
    else
      match format_user c.author_info with
      | .error e => .error e
      | .ok user =>
        match commentsLoop cs with
        | .error e => .error e
        | .ok rest =>
          .ok ({ user := user, created_at := c.utc_created_on,
                 body := c.content.getD "", number := c.comment_id } :: rest)

/-- migrate.py `get_comments`, taking the parsed JSON comment list of one
issue as input.  `List.insertionSort` is a stable ascending sort, matching
Python `sorted` with the `utc_created_on` key. -/
def get_comments (result : List BBComment) : Except String (List Comment) :=
  commentsLoop (List.insertionSort commentLe result)

/-- migrate.py `get_issues`: the paginated fetch loop.  `server` maps a start
offset to the parsed `issues` field of the response page; `fuel` bounds the
number of iterations (`none` means the Python loop would still be running).
The result pairs the accumulated issues with the number of page requests
made. -/
def get_issues {α : Type} : Nat → (Int → List α) → Int → Option (List α × Nat)
  | 0, _, _ => none
  | fuel + 1, server, start_id =>
    let page := server start_id
    if page.isEmpty then some ([], 1)
    else
      match get_issues fuel server (start_id + page.length) with
      | none => none
      | some (rest, n) => some (page ++ rest, n + 1)

/-- migrate.py `setup_labels`: the label list it builds, which is also the
order of the sequential create calls.  The three hex strings are the
category-fixed colors of the source. -/
def setup_labels (milestones components : List String) : List (String × String) :=
  [("import", "888888")] ++
    milestones.map (fun m => (m, "cccccc")) ++
    components.map (fun c => (c, "357ebd"))

/-- A GitHub API write call made by `push_issue`, recorded as a trace event. -/
inductive GHCall where
  | create (title body : String)
  | updateState (number : Nat) (state : String)
  | addLabels (number : Nat) (labels : List String)
  | createComment (number : Nat) (body : String)
deriving DecidableEq

/-- Test for a close-state update call. -/
def isUpdateState : GHCall → Bool
  | .updateState _ _ => true
  | _ => false

/-- Test for a comment creation call. -/
def isCreateComment : GHCall → Bool
  | .createComment _ _ => true
  | _ => false

/-- Python `filter(bool, ...)` over optional strings: keeps values that are
present and nonempty. -/
def truthyFilter (xs : List (Option String)) : List String :=
  xs.filterMap (fun x =>
    match x with
    | none => none
    | some s => if s = "" then none else some s)

/-- The label arguments of the `add_to_issue` call in `push_issue`. -/
def issueLabels (issue : Issue) : List String :=
  truthyFilter [some "import", issue.milestone, issue.component]

/-- The status `if`/`elif` chain of `push_issue`, rendered as the state-update
calls it performs.  It mirrors the source arm by arm, including the
duplicated `wontfix` arm and the `on hold` spelling; every arm other than
`resolved` is a `pass`. -/
def statusCalls (status : Option String) (number : Nat) : List GHCall :=
  if status = some "resolved" then [GHCall.updateState number "closed"]
  else if status = some "wontfix" then []
  else if status = some "on hold" then []
  else if status = some "invalid" then []
  else if status = some "duplicate" then []
  else if status = some "wontfix" then []
  else []

/-- The final loop of `push_issue`: one comment-creation call per comment,
formatted with `format_comment`; the first formatting failure aborts, as the
Python exception would. -/
def commentCallsLoop (new_number : Nat) : List Comment → Except String (List GHCall)
  | [] => .ok []
  | c :: cs =>
    match format_comment c with
    | .error e => .error e
    | .ok fc =>
      match commentCallsLoop new_number cs with
      | .error e => .error e
      | .ok rest => .ok (GHCall.createComment new_number fc :: rest)

/-- migrate.py `push_issue`, as the ordered trace of GitHub API calls it
makes: create, the status-dependent state update, the label attach, then one
comment creation per comment.  `new_number` stands for the issue number the
create call returns. -/
def push_issue (gh_username gh_repository : String) (issue : Issue) (body : String)
    (comments : List Comment) (new_number : Nat) : Except String (List GHCall) :=
  match commentCallsLoop new_number comments with
  | .error e => .error e
  | .ok commentCalls =>
    .ok (GHCall.create issue.title body ::
      statusCalls issue.status new_number ++
      GHCall.addLabels new_number (issueLabels issue) :: commentCalls)

/-- Comparison used by the orchestrator to sort issues: ascending `local_id`. -/
def localIdLe (a b : Issue) : Prop := a.local_id ≤ b.local_id

instance : DecidableRel localIdLe := fun a b =>
  inferInstanceAs (Decidable (a.local_id ≤ b.local_id))

/-- The order in which the `__main__` loop visits issues, in both dry-run and
live mode: `sorted(issues, key=lambda issue: issue['local_id'])` with a
stable ascending sort. -/
def publish_order (issues : List Issue) : List Issue :=
  List.insertionSort localIdLe issues

deriving instance DecidableEq for Except

/-- Concrete options value used by the concrete evaluations below: the source
account is `acct`, the repository `myrepo`, and the `-u` flag was not given. -/
def optionsA : Options :=
  { bitbucket_accountname := "acct", bitbucket_repo := "myrepo",
    github_username := "gh", github_repo := "gh/repo",
    dry_run := false, start := 0, bitbucket_username := false }

/-- Concrete issue value: number 7, no content key, no reported_by key. -/
def issueA : Issue :=
  { local_id := 7, title := "t", content := none, status := some "open",
    created_on := "2012-05-17 00:00:00", reported_by := none,
    milestone := none, component := none }

/-- The issue body migrate.py actually produces for `optionsA` / `issueA`. -/
def bodyA : String :=
  "None\n\n" ++ sep40 ++
    "\n- Bitbucket: https://bitbucket.org/False/myrepo/issue/7" ++
    "\n- Originally reported by: Anonymous" ++
    "\n- Originally created at: 2012-05-17 00:00:00\n"

/-- Concrete raw comment: nonempty body, no author, middle timestamp. -/
def bbc1 : BBComment :=
  { content := some "hello", author_info := none, utc_created_on := "2012-02", comment_id := 2 }

/-- Concrete raw comment: null body (a pure status change), latest timestamp. -/
def bbc2 : BBComment :=
  { content := none, author_info := none, utc_created_on := "2012-03", comment_id := 3 }

/-- Concrete raw comment: nonempty body, named author, earliest timestamp,
delivered last by the source. -/
def bbc3 : BBComment :=
  { content := some "first",
    author_info := some { first_name := some "A", last_name := some "B", username := none },
    utc_created_on := "2012-01", comment_id := 1 }

/-- The comment list `get_comments` produces for `bbc1`, `bbc2`, `bbc3`. -/
def outW : List Comment :=
  [{ user := some "A B", created_at := "2012-01", body := "first", number := 1 },
   { user := some "Anonymous", created_at := "2012-02", body := "hello", number := 2 }]

/-- Concrete page server returning pages of sizes 25, 25 and 0 at the offsets
the fetch loop visits. -/
def srv : Int → List Nat :=
  fun s => if s = 0 then List.range 25 else if s = 25 then List.range 25 else []

/-- Concrete comment with a present user, for the publisher witness. -/
def commentW : Comment :=
  { user := some "u", created_at := "2012-01", body := "hi", number := 1 }

/-- Concrete resolved issue for the publisher witness. -/
def issueR : Issue :=
  { local_id := 1, title := "t1", content := some "b",
    status := some "resolved", created_on := "c", reported_by := none,
    milestone := some "v1", component := none }

/-- Concrete issue with identifier 3. -/
def issueW1 : Issue :=
  { local_id := 3, title := "a", content := none, status := none,
    created_on := "", reported_by := none, milestone := none, component := none }

/-- Concrete issue with identifier 1. -/
def issueW2 : Issue :=
  { local_id := 1, title := "b", content := none, status := none,
    created_on := "", reported_by := none, milestone := none, component := none }

/-- Concrete issue with identifier 2. -/
def issueW3 : Issue :=
  { local_id := 2, title := "c", content := none, status := none,
    created_on := "", reported_by := none, milestone := none, component := none }

/-- Totality of the code-point lexicographic comparison. -/
theorem strLeB_total : ∀ x y : List Char, strLeB x y = true ∨ strLeB y x = true := by
  intro x
  induction x with
  | nil => intro y; left; rfl
  | cons a as ih =>
    intro y
    cases y with
    | nil => right; rfl
    | cons b bs =>
      rcases Nat.lt_trichotomy a.toNat b.toNat with h1 | h1 | h1
      · left; simp [strLeB, h1]
      · rcases ih bs with h | h
        · left; simp [strLeB, h1, Nat.lt_irrefl, h]
        · right; simp [strLeB, h1.symm, Nat.lt_irrefl, h]
      · right; simp [strLeB, h1]

/-- Transitivity of the code-point lexicographic comparison. -/
theorem strLeB_trans : ∀ x y z : List Char,
    strLeB x y = true → strLeB y z = true → strLeB x z = true := by
  intro x
  induction x with
  | nil => intro y z _ _; rfl
  | cons a as ih =>
    intro y z hxy hyz
    cases y with
    | nil => exact absurd hxy (by simp [strLeB])
    | cons b bs =>
      cases z with
      | nil => exact absurd hyz (by simp [strLeB])
      | cons c cs =>
        simp only [strLeB] at hxy hyz ⊢
        rcases Nat.lt_trichotomy a.toNat b.toNat with h1 | h1 | h1
        · rcases Nat.lt_trichotomy b.toNat c.toNat with h2 | h2 | h2
          · simp [Nat.lt_trans h1 h2]
          · simp [show a.toNat < c.toNat by omega]
          · rw [if_neg (by omega), if_pos h2] at hyz
            exact absurd hyz (by simp)
        · rcases Nat.lt_trichotomy b.toNat c.toNat with h2 | h2 | h2
          · simp [show a.toNat < c.toNat by omega]
          · rw [if_neg (by omega), if_neg (by omega)] at hxy
            rw [if_neg (by omega), if_neg (by omega)] at hyz
            rw [if_neg (by omega), if_neg (by omega)]
            exact ih bs cs hxy hyz
          · rw [if_neg (by omega), if_pos h2] at hyz
            exact absurd hyz (by simp)
        · rw [if_neg (by omega), if_pos h1] at hxy
          exact absurd hxy (by simp)

/-- C1 counterexample: on an author record containing only a `username` key,
`format_user` raises `KeyError` (the square-bracket access to `first_name`),
so it does not return the markdown link the claim states. -/
theorem format_user_username_only_counterexample :
    format_user (some { first_name := none, last_name := none, username := some "ada" }) =
      .error "KeyError: first_name" ∧
    format_user (some { first_name := none, last_name := none, username := some "ada" }) ≠
      .ok (some "[ada](http://bitbucket.org/ada)") := by
  exact ⟨rfl, by decide⟩

/-- C1 (amended): `format_user` returns `Anonymous` for an absent author,
`first last` when both name keys are present and non-empty, and the markdown
profile link for a record whose `first_name` and `last_name` keys are present
but empty alongside a `username` key. -/
theorem format_user_equations :
    format_user none = .ok (some "Anonymous") ∧
    format_user (some { first_name := some "Ada", last_name := some "Lovelace",
                        username := none }) = .ok (some "Ada Lovelace") ∧
    format_user (some { first_name := some "", last_name := some "",
                        username := some "ada" }) =
      .ok (some "[ada](http://bitbucket.org/ada)") := by
  exact ⟨rfl, rfl, rfl⟩

/-- C3 counterexample: on the spec's example input the translator does not
produce the claimed three-line output; the empty fragments around the markers
become indent-only lines instead of collapsing. -/
theorem clean_body_example_counterexample :
    clean_body (some ("before\n" ++ String.mk ooo ++ "\ncode\n" ++ String.mk ccc ++ "\nafter")) ≠
      "before\n    code\nafter" := by decide

/-- C3 (amended): on the input `before`, open marker, `code`, close marker,
`after` (newline separated), `clean_body` yields `before`, a four-space line,
four-space-indented `code`, a four-space line, `after`. -/
theorem clean_body_example :
    clean_body (some ("before\n" ++ String.mk ooo ++ "\ncode\n" ++ String.mk ccc ++ "\nafter")) =
      "before\n    \n    code\n    \nafter" := by decide

/-- C4 counterexample: a line that contains the open marker without starting
with a marker is not treated as a block delimiter: the marker is replaced
inline by a backtick and the inside-code-block flag stays false. -/
theorem clean_line_containment_counterexample :
    clean_line false (['x'] ++ ooo ++ ['y']) = ([['x', btick, 'y']], false) ∧
    ([['x', btick, 'y']], false) ≠ (([indentU ++ ['y']], true) : List (List Char) × Bool) := by
  exact ⟨by decide, by decide⟩

/-- C4 (amended): for a line that starts with the open or close marker,
contains the open marker, and does not contain the close marker, the
translator splits at the open marker, keeps the trailing remainder, indents
it by the fixed four-space unit, and sets the inside-code-block flag true. -/
theorem clean_line_start_marker (b : Bool) (line bef aft : List Char)
    (hstart : leadsWith ooo line = true ∨ leadsWith ccc line = true)
    (hopen : findSplit ooo line = some (bef, aft))
    (hnoclose : strContains line ccc = false) :
    clean_line b line = ([indentU ++ aft], true) := by
  have h1 : (leadsWith ooo line || leadsWith ccc line) = true := by
    rcases hstart with h | h <;> simp [h]
  have h2 : findSplit ccc line = none := by
    unfold strContains at hnoclose
    cases hh : findSplit ccc line
    · rfl
    · rw [hh] at hnoclose
      simp at hnoclose
  simp [clean_line, h1, hopen, h2]

/-- Witness for the amended C4 theorem at a concrete line consisting of the
open marker followed by `x`. -/
theorem clean_line_start_marker_witness :
    (leadsWith ooo (ooo ++ ['x']) = true ∨ leadsWith ccc (ooo ++ ['x']) = true) ∧
    findSplit ooo (ooo ++ ['x']) = some ([], ['x']) ∧
    strContains (ooo ++ ['x']) ccc = false ∧
    clean_line false (ooo ++ ['x']) = ([indentU ++ ['x']], true) :=
  ⟨Or.inl (by decide), by decide, by decide,
    clean_line_start_marker false (ooo ++ ['x']) [] ['x'] (Or.inl (by decide))
      (by decide) (by decide)⟩

/-- C8: the label list is the fixed `import` label first, then one label per
milestone, then one label per component, each with its category color; for
milestones `v1`, `v2` and components `ui` the names are exactly `import`,
`v1`, `v2`, `ui` in that order with no duplicates, and in general the name
list is `import` followed by the milestones followed by the components. -/
theorem setup_labels_composition :
    (setup_labels ["v1", "v2"] ["ui"]).map Prod.fst = ["import", "v1", "v2", "ui"] ∧
    ((setup_labels ["v1", "v2"] ["ui"]).map Prod.fst).Nodup ∧
    setup_labels ["v1", "v2"] ["ui"] =
      [("import", "888888"), ("v1", "cccccc"), ("v2", "cccccc"), ("ui", "357ebd")] ∧
    ∀ (ms cs : List String), (setup_labels ms cs).map Prod.fst = "import" :: (ms ++ cs) := by
  refine ⟨by decide, by decide, by decide, ?_⟩
  intro ms cs
  simp [setup_labels, List.map_map, Function.comp_def]

set_option maxRecDepth 8192 in
/-- C2: evaluation of `format_body` at a concrete failing input.  With source
account `acct` and repository `myrepo`, the URL in the provenance block is
`https://bitbucket.org/False/myrepo/issue/7`: the source interpolates the
boolean `-u` flag (`options.bitbucket_username`, rendered `False`) where the
claim requires the account name, so the account name never appears in the
body.  The reported-by line and the verbatim timestamp do follow the URL. -/
theorem format_body_url_uses_flag :
    format_body optionsA issueA = .ok bodyA ∧
    strContains bodyA.data ("https://bitbucket.org/False/myrepo/issue/7").data = true ∧
    strContains bodyA.data ("https://bitbucket.org/acct/myrepo/issue/7").data = false ∧
    strContains bodyA.data optionsA.bitbucket_accountname.data = false := by
  exact ⟨by decide, by decide, by decide, by decide⟩

/-- C10: when the issue carries no content field, `clean_body` stringifies the
absent value to the literal `None` (neither failing nor returning the empty
string), and the formatted body is that four-character text followed by the
separator and the provenance block. -/
theorem format_body_missing_content (options : Options) (issue : Issue)
    (hc : issue.content = none) (hr : issue.reported_by = none) :
    clean_body none = "None" ∧ clean_body none ≠ "" ∧
    format_body options issue =
      .ok ("None" ++ "\n\n" ++ sep40 ++
        "\n- Bitbucket: https://bitbucket.org/" ++ pyBoolStr options.bitbucket_username ++
        "/" ++ options.bitbucket_repo ++ "/issue/" ++ toString issue.local_id ++
        "\n- Originally reported by: " ++ "Anonymous" ++
        "\n- Originally created at: " ++ issue.created_on ++ "\n") := by
  have hnone : clean_body none = "None" := by decide
  refine ⟨hnone, by decide, ?_⟩
  simp only [format_body, format_name, hr, hc, pyFormatOpt, hnone]

/-- Witness for the C10 theorem at the concrete `optionsA` / `issueA` pair. -/
theorem format_body_missing_content_witness :
    issueA.content = none ∧ issueA.reported_by = none ∧
    (clean_body none = "None" ∧ clean_body none ≠ "" ∧
      format_body optionsA issueA =
        .ok ("None" ++ "\n\n" ++ sep40 ++
          "\n- Bitbucket: https://bitbucket.org/" ++ pyBoolStr optionsA.bitbucket_username ++
          "/" ++ optionsA.bitbucket_repo ++ "/issue/" ++ toString issueA.local_id ++
          "\n- Originally reported by: " ++ "Anonymous" ++
          "\n- Originally created at: " ++ issueA.created_on ++ "\n")) :=
  ⟨rfl, rfl, format_body_missing_content optionsA issueA rfl rfl⟩

/-- Unfolding equation of the fetch loop for one more unit of fuel. -/
theorem get_issues_succ {α : Type} (fuel : Nat) (server : Int → List α) (start_id : Int) :
    get_issues (fuel + 1) server start_id =
      if (server start_id).isEmpty then some ([], 1)
      else
        match get_issues fuel server (start_id + (server start_id).length) with
        | none => none
        | some (rest, n) => some (server start_id ++ rest, n + 1) := rfl

/-- C6: against a source whose pages at offsets 0, 25 and 50 have sizes 25,
25 and 0, the fetch loop advances the offset by the size of each page,
stops at the empty page, and returns exactly the 50 issues of the first two
pages in order after exactly 3 page requests. -/
theorem get_issues_pagination {α : Type} (server : Int → List α)
    (h0 : (server 0).length = 25) (h25 : (server 25).length = 25)
    (h50 : server 50 = []) :
    get_issues 3 server 0 = some (server 0 ++ server 25, 3) ∧
    (server 0 ++ server 25).length = 50 := by
  have hne0 : (server 0).isEmpty = false := by
    cases hc : server 0
    · rw [hc] at h0; simp at h0
    · simp [List.isEmpty]
  have hne25 : (server 25).isEmpty = false := by
    cases hc : server 25
    · rw [hc] at h25; simp at h25
    · simp [List.isEmpty]
  have hstep0 : (0 : Int) + ((server 0).length : Int) = 25 := by rw [h0]; norm_num
  have hstep25 : (25 : Int) + ((server 25).length : Int) = 50 := by rw [h25]; norm_num
  have g50 : get_issues 1 server 50 = some ([], 1) := by
    rw [show (1 : Nat) = 0 + 1 from rfl, get_issues_succ]
    simp [h50]
  have g25 : get_issues 2 server 25 = some (server 25 ++ [], 2) := by
    rw [show (2 : Nat) = 1 + 1 from rfl, get_issues_succ, hstep25, hne25, g50]
    simp
  have g0 : get_issues 3 server 0 = some (server 0 ++ (server 25 ++ []), 3) := by
    rw [show (3 : Nat) = 2 + 1 from rfl, get_issues_succ, hstep0, hne0, g25]
    simp
  refine ⟨?_, by simp [List.length_append, h0, h25]⟩
  rw [g0, List.append_nil]

/-- Witness for the C6 theorem at the concrete page server `srv`. -/
theorem get_issues_pagination_witness :
    (srv 0).length = 25 ∧ (srv 25).length = 25 ∧ srv 50 = [] ∧
    (get_issues 3 srv 0 = some (srv 0 ++ srv 25, 3) ∧ (srv 0 ++ srv 25).length = 50) :=
  ⟨by decide, by decide, by decide,
    get_issues_pagination srv (by decide) (by decide) (by decide)⟩

/-- Structural facts about the `get_comments` loop: on success, the produced
timestamps form a sublist of the input timestamps, every produced body is
nonempty, and exactly the nonempty-body comments survive. -/
theorem commentsLoop_shape :
    ∀ (l : List BBComment) (out : List Comment), commentsLoop l = .ok out →
      List.Sublist (out.map Comment.created_at) (l.map BBComment.utc_created_on) ∧
      (∀ c ∈ out, c.body ≠ "") ∧
      out.length = (l.filter (fun c => !(c.content.getD "" == ""))).length := by
  intro l
  induction l with
  | nil =>
    intro out h
    simp only [commentsLoop] at h
    cases h
    simp
  | cons c cs ih =>
    intro out h
    simp only [commentsLoop] at h
    by_cases hb : c.content.getD "" = ""
    · rw [if_pos hb] at h
      obtain ⟨hsub, hne, hlen⟩ := ih out h
      refine ⟨hsub.cons _, hne, ?_⟩
      simp [List.filter_cons, hb, hlen]
    · rw [if_neg hb] at h
      cases hfu : format_user c.author_info with
      | error e => rw [hfu] at h; cases h
      | ok user =>
        rw [hfu] at h
        cases hcl : commentsLoop cs with
        | error e => rw [hcl] at h; cases h
        | ok rest =>
          rw [hcl] at h
          cases h
          obtain ⟨hsub, hne, hlen⟩ := ih rest hcl
          refine ⟨hsub.cons₂ _, ?_, ?_⟩
          · intro x hx
            cases hx with
            | head => exact hb
            | tail _ hx => exact hne x hx
          · simp [List.filter_cons, hb, hlen]

/-- C5: whenever `get_comments` succeeds, its output contains no comment with
an empty or absent body, is in non-decreasing order of the server-recorded
creation timestamp under Python's string comparison, and keeps exactly the
source comments whose body was nonempty, regardless of delivery order. -/
theorem get_comments_spec (result : List BBComment) (out : List Comment)
    (h : get_comments result = .ok out) :
    (∀ c ∈ out, c.body ≠ "") ∧
    out.Pairwise (fun a b => pyStrLe a.created_at b.created_at) ∧
    out.length = (result.filter (fun c => !(c.content.getD "" == ""))).length := by
  haveI : IsTotal BBComment commentLe :=
    ⟨fun a b => strLeB_total a.utc_created_on.data b.utc_created_on.data⟩
  haveI : IsTrans BBComment commentLe :=
    ⟨fun _ _ _ hab hbc => strLeB_trans _ _ _ hab hbc⟩
  obtain ⟨hsub, hne, hlen⟩ := commentsLoop_shape _ _ h
  refine ⟨hne, ?_, ?_⟩
  · have hsorted : (List.insertionSort commentLe result).Pairwise commentLe :=
      List.sorted_insertionSort commentLe result
    have hmap : ((List.insertionSort commentLe result).map BBComment.utc_created_on).Pairwise
        (fun a b => pyStrLe a b) := by
      rw [List.pairwise_map]
      exact hsorted
    have h2 := List.Pairwise.sublist hsub hmap
    rw [List.pairwise_map] at h2
    exact h2
  · rw [hlen]
    have hperm : (List.insertionSort commentLe result).Perm result :=
      List.perm_insertionSort commentLe result
    exact (hperm.filter _).length_eq

/-- Witness for the C5 theorem on three concrete comments delivered out of
order, one of them with a null body. -/
theorem get_comments_spec_witness :
    get_comments [bbc1, bbc2, bbc3] = .ok outW ∧
    ((∀ c ∈ outW, c.body ≠ "") ∧
      outW.Pairwise (fun a b => pyStrLe a.created_at b.created_at) ∧
      outW.length = ([bbc1, bbc2, bbc3].filter (fun c => !(c.content.getD "" == ""))).length) :=
  ⟨by decide, get_comments_spec [bbc1, bbc2, bbc3] outW (by decide)⟩

/-- The status chain performs exactly one close-state update for a resolved
issue and none otherwise. -/
theorem statusCalls_eq (status : Option String) (n : Nat) :
    statusCalls status n =
      if status = some "resolved" then [GHCall.updateState n "closed"] else [] := by
  by_cases h : status = some "resolved"
  · simp [statusCalls, h]
  · simp only [statusCalls, h, if_false]
    split_ifs <;> rfl

/-- A comment-creation call is not a state-update call. -/
theorem isUpdateState_of_isCreateComment (call : GHCall)
    (h : isCreateComment call = true) : isUpdateState call = false := by
  cases call
  case create t b => rfl
  case updateState n s => exact absurd h (by simp [isCreateComment])
  case addLabels n ls => rfl
  case createComment n b => rfl

/-- When every comment has a user string, the comment loop of `push_issue`
succeeds with one comment-creation call per comment. -/
theorem commentCallsLoop_ok (new_number : Nat) :
    ∀ (comments : List Comment), (∀ c ∈ comments, c.user ≠ none) →
      ∃ calls, commentCallsLoop new_number comments = .ok calls ∧
        calls.length = comments.length ∧
        ∀ call ∈ calls, isCreateComment call = true := by
  intro comments
  induction comments with
  | nil => intro _; exact ⟨[], rfl, rfl, by simp⟩
  | cons c cs ih =>
    intro h
    obtain ⟨calls, hcalls, hlen, hall⟩ := ih (fun x hx => h x (List.mem_cons_of_mem _ hx))
    cases hu : c.user with
    | none => exact absurd hu (h c (List.mem_cons_self _ _))
    | some u =>
      refine ⟨GHCall.createComment new_number
          (c.body ++ "\n\n" ++ sep40 ++ "\nOriginal comment by: " ++ u ++ "\n") :: calls,
        ?_, by simp [hlen], ?_⟩
      · simp [commentCallsLoop, format_comment, hu, hcalls]
      · intro call hcall
        rcases List.mem_cons.mp hcall with h1 | h1
        · rw [h1]; rfl
        · exact hall call h1

/-- C7: the publisher emits the create call first; a resolved issue causes
exactly one close-state update, placed directly after the create call; for
the statuses wontfix, on-hold, invalid and duplicate no state-update call
appears at all and no error is raised; and in every case the label attach
call and one comment-creation call per comment are still made. -/
theorem push_issue_status (gh_username gh_repository : String) (issue : Issue) (body : String)
    (comments : List Comment) (new_number : Nat)
    (hc : ∀ c ∈ comments, c.user ≠ none) :
    ∃ tr, push_issue gh_username gh_repository issue body comments new_number = .ok tr ∧
      tr.head? = some (GHCall.create issue.title body) ∧
      tr.countP isUpdateState = (if issue.status = some "resolved" then 1 else 0) ∧
      (issue.status = some "resolved" →
        tr[1]? = some (GHCall.updateState new_number "closed")) ∧
      (issue.status = some "wontfix" ∨ issue.status = some "on-hold" ∨
          issue.status = some "invalid" ∨ issue.status = some "duplicate" →
        ∀ call ∈ tr, isUpdateState call = false) ∧
      GHCall.addLabels new_number (issueLabels issue) ∈ tr ∧
      tr.countP isCreateComment = comments.length := by
  obtain ⟨calls, hcalls, hlen, hall⟩ := commentCallsLoop_ok new_number comments hc
  have hcalls0 : calls.countP isUpdateState = 0 :=
    List.countP_eq_zero.mpr (fun call hcall => by
      simp [isUpdateState_of_isCreateComment call (hall call hcall)])
  have hcallslen : calls.countP isCreateComment = calls.length :=
    List.countP_eq_length.mpr (fun a ha => by simp [hall a ha])
  refine ⟨GHCall.create issue.title body ::
      (statusCalls issue.status new_number ++
        GHCall.addLabels new_number (issueLabels issue) :: calls),
    ?_, rfl, ?_, ?_, ?_, ?_, ?_⟩
  · simp [push_issue, hcalls]
  · rw [statusCalls_eq]
    by_cases h : issue.status = some "resolved" <;>
      simp [h, List.countP_cons, List.countP_append, isUpdateState, hcalls0]
  · intro h
    rw [statusCalls_eq, if_pos h]
    rfl
  · intro hs
    have hnr : issue.status ≠ some "resolved" := by
      rcases hs with h | h | h | h <;> rw [h] <;> simp
    intro call hcall
    rw [statusCalls_eq, if_neg hnr] at hcall
    simp only [List.nil_append, List.mem_cons] at hcall
    rcases hcall with h1 | h1 | h1
    · rw [h1]; rfl
    · rw [h1]; rfl
    · exact isUpdateState_of_isCreateComment call (hall call h1)
  · exact List.mem_cons_of_mem _ (List.mem_append_right _ (List.mem_cons_self _ _))
  · rw [statusCalls_eq]
    by_cases h : issue.status = some "resolved" <;>
      simp [h, List.countP_cons, List.countP_append, isCreateComment, hcallslen, hlen]

/-- Witness for the C7 theorem at a concrete resolved issue with one
comment. -/
theorem push_issue_status_witness :
    (∀ c ∈ [commentW], c.user ≠ none) ∧
    (∃ tr, push_issue "gh" "repo" issueR "body" [commentW] 5 = .ok tr ∧
      tr.head? = some (GHCall.create issueR.title "body") ∧
      tr.countP isUpdateState = (if issueR.status = some "resolved" then 1 else 0) ∧
      (issueR.status = some "resolved" →
        tr[1]? = some (GHCall.updateState 5 "closed")) ∧
      (issueR.status = some "wontfix" ∨ issueR.status = some "on-hold" ∨
          issueR.status = some "invalid" ∨ issueR.status = some "duplicate" →
        ∀ call ∈ tr, isUpdateState call = false) ∧
      GHCall.addLabels 5 (issueLabels issueR) ∈ tr ∧
      tr.countP isCreateComment = [commentW].length) :=
  ⟨by decide, push_issue_status "gh" "repo" issueR "body" [commentW] 5 (by decide)⟩

/-- C9: for any collection of issues with pairwise distinct source
identifiers, the order in which the orchestrator publishes (or, in dry-run
mode, prints) is a permutation of the input in strictly ascending order of
`local_id`, regardless of fetch order. -/
theorem publish_order_ascending (issues : List Issue)
    (h : issues.Pairwise (fun a b => a.local_id ≠ b.local_id)) :
    (publish_order issues).Pairwise (fun a b => a.local_id < b.local_id) ∧
    (publish_order issues).Perm issues := by
  haveI : IsTotal Issue localIdLe := ⟨fun a b => Nat.le_total a.local_id b.local_id⟩
  haveI : IsTrans Issue localIdLe := ⟨fun _ _ _ hab hbc => Nat.le_trans hab hbc⟩
  have hperm : (publish_order issues).Perm issues := List.perm_insertionSort localIdLe issues
  have hsort : (publish_order issues).Pairwise localIdLe :=
    List.sorted_insertionSort localIdLe issues
  have hne : (publish_order issues).Pairwise (fun a b => a.local_id ≠ b.local_id) :=
    (hperm.pairwise_iff (fun hxy => Ne.symm hxy)).mpr h
  refine ⟨?_, hperm⟩
  exact (hsort.and hne).imp (fun hab => Nat.lt_of_le_of_ne hab.1 hab.2)

/-- Witness for the C9 theorem on three concrete issues delivered out of
order. -/
theorem publish_order_ascending_witness :
    [issueW1, issueW2, issueW3].Pairwise (fun a b => a.local_id ≠ b.local_id) ∧
    ((publish_order [issueW1, issueW2, issueW3]).Pairwise
        (fun a b => a.local_id < b.local_id) ∧
      (publish_order [issueW1, issueW2, issueW3]).Perm [issueW1, issueW2, issueW3]) :=
  ⟨by decide, publish_order_ascending [issueW1, issueW2, issueW3] (by decide)⟩

end Migrate
